import Mathlib

/-!
Verification development for the TrueSight backend (`src/backend.js`).

JavaScript strings are embedded as `List Char` (wrapped in `String` at the
API boundary).  JavaScript numbers are embedded as `ℚ` (no numeric claim in
this development depends on binary floating-point rounding).  The
randomness consumed by `Math.random()` is passed in explicitly as rational
draws `r₁ r₂ ∈ [0,1)`.  The outcome of the outbound `fetch` call is an
explicit value of type `FetchOutcome`.
-/

/-- Model of the JavaScript whitespace class used by `String.prototype.trim`
and by the `\s` regex class (the common members; exotic Unicode spaces are
not produced by any input considered here). -/
def isJsWs (c : Char) : Bool :=
  c = ' ' || c = '\t' || c = '\n' || c = '\r' || c = '\x0b' || c = '\x0c' || c = ' '

/-- Model of `String.prototype.trim`: drop leading and trailing whitespace. -/
def trimList (cs : List Char) : List Char :=
  ((cs.dropWhile isJsWs).reverse.dropWhile isJsWs).reverse

/-- Test `hasPrefixL pat cs`: it holds when `pat` is a prefix of `cs`. -/
def hasPrefixL : List Char → List Char → Bool
  | [], _ => true
  | _ :: _, [] => false
  | p :: ps, c :: rest => p = c && hasPrefixL ps rest

/-- Model of `String.prototype.includes`: `pat` occurs contiguously in `cs`. -/
def listContains (cs pat : List Char) : Bool :=
  (List.range (cs.length + 1)).any (fun i => hasPrefixL pat (cs.drop i))

/-- Model of `String.prototype.split('\n')`. -/
def splitNl : List Char → List (List Char)
  | [] => [[]]
  | c :: rest =>
    let r := splitNl rest
    if c = '\n' then [] :: r
    else
      match r with
      | [] => [[c]]
      | h :: t => (c :: h) :: t

/-- The backtick character (U+0060), written via its code point. -/
def tick : Char := Char.ofNat 96

/-- The three-backtick fence delimiter searched for by
`jsonText.includes('<three backticks>')` in `src/backend.js`. -/
def fence3 : List Char := [tick, tick, tick]

/-! ## JSON values and a model of `JSON.parse`

`JSON.parse` is part of the JavaScript standard library, not of the
repository; it is modelled here by a recursive-descent parser over
`List Char` producing `JsValue`, faithful to the JSON grammar accepted by
`JSON.parse` (strict object/array/string/number syntax, whitespace =
space/tab/newline/carriage-return, no trailing garbage, duplicate object
keys resolved last-wins). -/

/-- Deep embedding of a JavaScript (JSON-representable) value. -/
inductive JsValue where
  | null
  | bool (b : Bool)
  | num (q : ℚ)
  | str (s : String)
  | arr (elts : List JsValue)
  | obj (fields : List (String × JsValue))

/-- JSON grammar whitespace (RFC 8259: space, tab, line feed, carriage return). -/
def isJsonWs (c : Char) : Bool :=
  c = ' ' || c = '\t' || c = '\n' || c = '\r'

/-- Skip JSON whitespace. -/
def skipWs : List Char → List Char
  | [] => []
  | c :: cs => if isJsonWs c then skipWs cs else c :: cs

/-- Decimal digits to a natural number. -/
def digitsToNat (ds : List Char) : Nat :=
  ds.foldl (fun n c => n * 10 + (c.toNat - 48)) 0

/-- Hexadecimal digit value, for `\uXXXX` string escapes. -/
def hexVal (c : Char) : Option Nat :=
  if c.isDigit then some (c.toNat - 48)
  else if 'a' ≤ c ∧ c ≤ 'f' then some (c.toNat - 87)
  else if 'A' ≤ c ∧ c ≤ 'F' then some (c.toNat - 55)
  else none

/-- Parse the exponent part of a JSON number (after the `e`/`E`),
scaling the already-parsed mantissa `q`. -/
def parseExp (q : ℚ) (cs : List Char) : Option (ℚ × List Char) :=
  let p : Bool × List Char :=
    match cs with
    | '+' :: r => (false, r)
    | '-' :: r => (true, r)
    | _ => (false, cs)
  let ds := p.2.takeWhile Char.isDigit
  if ds.isEmpty then none
  else
    let e := digitsToNat ds
    some (if p.1 then q / ((10 : ℚ) ^ e) else q * ((10 : ℚ) ^ e), p.2.dropWhile Char.isDigit)

/-- Parse a JSON number without its optional leading minus sign. -/
def parseNumPos (cs : List Char) : Option (ℚ × List Char) :=
  let ip := cs.takeWhile Char.isDigit
  let rest1 := cs.dropWhile Char.isDigit
  if ip.isEmpty then none
  else if 1 < ip.length ∧ ip.head? = some '0' then none
  else
    let base : ℚ := (digitsToNat ip : ℚ)
    let step2 : Option (ℚ × List Char) :=
      match rest1 with
      | '.' :: r =>
        let fp := r.takeWhile Char.isDigit
        if fp.isEmpty then none
        else some (base + (digitsToNat fp : ℚ) / ((10 : ℚ) ^ fp.length), r.dropWhile Char.isDigit)
      | _ => some (base, rest1)
    match step2 with
    | none => none
    | some (q, rest2) =>
      match rest2 with
      | 'e' :: r => parseExp q r
      | 'E' :: r => parseExp q r
      | _ => some (q, rest2)

/-- Parse a JSON number. -/
def parseNumber (cs : List Char) : Option (ℚ × List Char) :=
  match cs with
  | '-' :: r => (parseNumPos r).map (fun p => (-p.1, p.2))
  | _ => parseNumPos cs

/-- Parse the body of a JSON string after the opening quote, returning the
decoded characters and the remainder after the closing quote. -/
def parseStringBody : List Char → Option (List Char × List Char)
  | [] => none
  | '"' :: rest => some ([], rest)
  | '\\' :: 'n' :: rest => (parseStringBody rest).map (fun p => ('\n' :: p.1, p.2))
  | '\\' :: 't' :: rest => (parseStringBody rest).map (fun p => ('\t' :: p.1, p.2))
  | '\\' :: 'r' :: rest => (parseStringBody rest).map (fun p => ('\r' :: p.1, p.2))
  | '\\' :: 'b' :: rest => (parseStringBody rest).map (fun p => ('\x08' :: p.1, p.2))
  | '\\' :: 'f' :: rest => (parseStringBody rest).map (fun p => ('\x0c' :: p.1, p.2))
  | '\\' :: '/' :: rest => (parseStringBody rest).map (fun p => ('/' :: p.1, p.2))
  | '\\' :: '\\' :: rest => (parseStringBody rest).map (fun p => ('\\' :: p.1, p.2))
  | '\\' :: '"' :: rest => (parseStringBody rest).map (fun p => ('"' :: p.1, p.2))
  | '\\' :: 'u' :: h1 :: h2 :: h3 :: h4 :: rest =>
    match hexVal h1, hexVal h2, hexVal h3, hexVal h4 with
    | some a, some b, some c, some d =>
      (parseStringBody rest).map (fun p => (Char.ofNat (((a * 16 + b) * 16 + c) * 16 + d) :: p.1, p.2))
    | _, _, _, _ => none
  | '\\' :: _ => none
  | c :: rest => if c.toNat < 32 then none else (parseStringBody rest).map (fun p => (c :: p.1, p.2))

/-- Parse the elements of a JSON array after the first element position,
with `pv` parsing one value; `g` is fuel bounding the number of elements. -/
def parseElems (pv : List Char → Option (JsValue × List Char)) :
    Nat → List Char → List JsValue → Option (List JsValue × List Char)
  | 0, _, _ => none
  | g + 1, cs, acc =>
    match pv cs with
    | none => none
    | some (v, rest) =>
      match skipWs rest with
      | ',' :: r2 => parseElems pv g r2 (v :: acc)
      | ']' :: r2 => some ((v :: acc).reverse, r2)
      | _ => none

/-- Parse the members of a JSON object, with `pv` parsing one value;
`g` is fuel bounding the number of members. -/
def parseFields (pv : List Char → Option (JsValue × List Char)) :
    Nat → List Char → List (String × JsValue) → Option (List (String × JsValue) × List Char)
  | 0, _, _ => none
  | g + 1, cs, acc =>
    match skipWs cs with
    | '"' :: r =>
      match parseStringBody r with
      | none => none
      | some (key, r1) =>
        match skipWs r1 with
        | ':' :: r2 =>
          match pv r2 with
          | none => none
          | some (v, rest) =>
            match skipWs rest with
            | ',' :: r3 => parseFields pv g r3 ((String.mk key, v) :: acc)
            | '}' :: r3 => some (((String.mk key, v) :: acc).reverse, r3)
            | _ => none
        | _ => none
    | _ => none

/-- One level of JSON value parsing, with `pv` parsing nested values. -/
def parseStep (pv : List Char → Option (JsValue × List Char)) (cs0 : List Char) :
    Option (JsValue × List Char) :=
  match skipWs cs0 with
  | 'n' :: 'u' :: 'l' :: 'l' :: r => some (.null, r)
  | 't' :: 'r' :: 'u' :: 'e' :: r => some (.bool true, r)
  | 'f' :: 'a' :: 'l' :: 's' :: 'e' :: r => some (.bool false, r)
  | '"' :: r => (parseStringBody r).map (fun p => (JsValue.str (String.mk p.1), p.2))
  | '[' :: r =>
    (match skipWs r with
     | ']' :: r2 => some (JsValue.arr [], r2)
     | r2 => (parseElems pv (r2.length + 1) r2 []).map (fun p => (JsValue.arr p.1, p.2)))
  | '{' :: r =>
    (match skipWs r with
     | '}' :: r2 => some (JsValue.obj [], r2)
     | r2 => (parseFields pv (r2.length + 1) r2 []).map (fun p => (JsValue.obj p.1, p.2)))
  | cs => (parseNumber cs).map (fun p => (JsValue.num p.1, p.2))

/-- JSON value parsing with a fuel bound on nesting depth. -/
def parseValue : Nat → List Char → Option (JsValue × List Char)
  | 0, _ => none
  | f + 1, cs => parseStep (fun cs2 => parseValue f cs2) cs

/-- Model of `JSON.parse`: parse a full JSON document, rejecting trailing
non-whitespace (as `JSON.parse` throws on it). -/
def jsonParse (cs : List Char) : Option JsValue :=
  match parseValue (cs.length + 1) cs with
  | none => none
  | some (v, rest) => if (skipWs rest).isEmpty then some v else none

/-! ## Reply-text normalization (`src/backend.js` lines 208-214 / 343-348)

The provider reply `textContent` is trimmed; if it contains a three-backtick
fence, the regex replacements Slash-three-backticks-json-optional-newline
(global, case-insensitive) and three-backticks-optional-newline (global)
are applied and the result trimmed; finally the first-to-last-brace span
matched by the regex open-brace, any characters, close-brace (greedy) is
extracted when it exists. -/

/-- Recognizer for the case-insensitive regex literal three-backticks-then-`json`
at the head of the list. -/
def isJsonFenceAt (cs : List Char) : Bool :=
  hasPrefixL fence3 cs && decide (((cs.drop 3).take 4).map Char.toLower = "json".data)

/-- Matcher for one occurrence of the three-backticks-`json`-optional-newline
regex at the head: returns how many characters the match consumes. -/
def mJson (cs : List Char) : Option Nat :=
  if isJsonFenceAt cs then
    some (7 + (if (cs.drop 7).head? = some '\n' then 1 else 0))
  else none

/-- Matcher for one occurrence of the three-backticks-optional-newline regex
at the head: returns how many characters the match consumes. -/
def mPlain (cs : List Char) : Option Nat :=
  if hasPrefixL fence3 cs then
    some (3 + (if (cs.drop 3).head? = some '\n' then 1 else 0))
  else none

/-- Global regex replacement by the empty string: scan left to right; where
the matcher fires, drop the matched characters and continue after them
(non-overlapping, exactly `String.prototype.replace` with a `g` flag and an
empty replacement).  The first argument is fuel (one unit per scan step). -/
def replAux (m : List Char → Option Nat) : Nat → List Char → List Char
  | 0, cs => cs
  | _ + 1, [] => []
  | f + 1, c :: rest =>
    match m (c :: rest) with
    | some k => replAux m f (List.drop k (c :: rest))
    | none => c :: replAux m f rest

/-- Model of `textContent.replace` of the three-backticks-`json`-optional-newline regex
(global, case-insensitive) by the empty string. -/
def stripJsonFence (cs : List Char) : List Char := replAux mJson cs.length cs

/-- Model of `textContent.replace` of the three-backticks-optional-newline regex
(global) by the empty string. -/
def stripPlainFence (cs : List Char) : List Char := replAux mPlain cs.length cs

/-- Index of the last occurrence of `c` in `cs`, if any. -/
def lastIdx (cs : List Char) (c : Char) : Option Nat :=
  (cs.reverse.findIdx? (fun d => d = c)).map (fun k => cs.length - 1 - k)

/-- Model of `jsonText.match` of the open-brace, any characters, close-brace (greedy)
regex: the span from the first open brace to the last close brace after it,
or the input unchanged when the regex does not match. -/
def braceSpanL (cs : List Char) : List Char :=
  match cs.findIdx? (fun d => d = '{'), lastIdx cs '}' with
  | some i, some j => if i < j then (cs.drop i).take (j - i + 1) else cs
  | _, _ => cs

/-- Lines 208-214 of `src/backend.js` (identical at lines 343-348): trim the
reply, strip markdown fences when present, and extract the brace span. -/
def extractJsonTextL (cs : List Char) : List Char :=
  braceSpanL
    (if listContains (trimList cs) fence3
     then trimList (stripPlainFence (stripJsonFence (trimList cs)))
     else trimList cs)

/-! ## The result value and the analysis functions -/

/-- The `AnalysisResult` value object returned by every analysis path.
`summary` holds raw JavaScript values: on the strict-parse path the code
stores `parsed.observations` without validating the element types, so the
entries need not be strings; the other paths store strings (embedded via
`JsValue.str`). -/
structure AnalysisResult where
  isOriginal : Bool
  confidence : ℤ
  summary : List JsValue
  analysisMethod : String
  fallbackReason : Option String

/-- The fixed authentic-leaning summary of `performMockAnalysis`. -/
def mockAuthObs : List String :=
  ["Natural texture patterns detected throughout the image",
   "Lighting and shadow consistency appears authentic",
   "No obvious AI generation artifacts found",
   "Image metadata suggests original capture"]

/-- The fixed AI-leaning summary of `performMockAnalysis`. -/
def mockAiObs : List String :=
  ["Unusual smoothness patterns detected in specific regions",
   "Inconsistent noise distribution across the image",
   "Texture repetition patterns typical of AI generation",
   "Subtle artifacts found in fine details"]

/-- Function `performMockAnalysis` (`src/backend.js` lines 107-126).  The two
`Math.random()` draws are passed in as `r1 r2 ∈ [0,1)`:
`isOriginal = Math.random() > 0.5` and
`confidence = Math.floor(Math.random() * 21) + 75`. -/
def performMockAnalysis (r1 r2 : ℚ) : AnalysisResult :=
  { isOriginal := decide ((1 : ℚ) / 2 < r1)
    confidence := ⌊r2 * 21⌋ + 75
    summary := (if (1 : ℚ) / 2 < r1 then mockAuthObs else mockAiObs).map JsValue.str
    analysisMethod := "mock"
    fallbackReason := none }

/-- The `catch (apiError)` tail of `analyzeWithClaude` / `analyzeWithDeepSeek`
(lines 263-267 / 396-400): take the object returned by
`performMockAnalysis`, overwrite its `analysisMethod` with `"mock-fallback"`
and set `fallbackReason` to the error message. -/
def mockFallbackResult (msg : String) (r1 r2 : ℚ) : AnalysisResult :=
  { performMockAnalysis r1 r2 with
    analysisMethod := "mock-fallback"
    fallbackReason := some msg }

/-- Property read `parsed.key` for a parsed JSON object member list
(duplicate keys: the later assignment wins, as in JavaScript objects). -/
def objGet : List (String × JsValue) → String → Option JsValue
  | [], _ => none
  | (k, v) :: rest, key =>
    match objGet rest key with
    | some v' => some v'
    | none => if k = key then some v else none

/-- The three `typeof`/`Array.isArray` checks of lines 219-221: succeed
exactly when `parsed` is an object whose `isOriginal` is a boolean,
`confidence` a number and `observations` an array (note: element types of
`observations` are not checked).  Any other shape throws in the source and
lands in the heuristic fallback, modelled by `none`. -/
def validateParsed : JsValue → Option (Bool × ℚ × List JsValue)
  | .obj fields =>
    match objGet fields "isOriginal", objGet fields "confidence", objGet fields "observations" with
    | some (.bool b), some (.num c), some (.arr obs) => some (b, c, obs)
    | _, _, _ => none
  | _ => none

/-- The strict-parse stage: normalize the reply text, `JSON.parse` it and
validate the three fields. -/
def strictParse (cs : List Char) : Option (Bool × ℚ × List JsValue) :=
  (jsonParse (extractJsonTextL cs)).bind validateParsed

/-- The result built on a successful strict parse in `analyzeWithClaude`
(lines 225-230): `Math.min(100, Math.max(0, Math.round(confidence)))`,
observations passed through as `summary`. -/
def claudeStrictResult (b : Bool) (c : ℚ) (obs : List JsValue) : AnalysisResult :=
  { isOriginal := b
    confidence := min 100 (max 0 (round c))
    summary := obs
    analysisMethod := "claude-api"
    fallbackReason := none }

/-- The result built on a successful strict parse in `analyzeWithDeepSeek`
(lines 359-364). -/
def deepseekStrictResult (b : Bool) (c : ℚ) (obs : List JsValue) : AnalysisResult :=
  { isOriginal := b
    confidence := min 100 (max 0 (round c))
    summary := obs
    analysisMethod := "deepseek-api"
    fallbackReason := none }

/-- The bullet/numbering class of the regex caret, class hyphen star bullet
digit dot close-paren close-bracket, one-or-more, in lines 243 / 376. -/
def isBulletChar (c : Char) : Bool :=
  c = '-' || c = '*' || c = '•' || c.isDigit || c = '.' || c = ')' || c = ']'

/-- Model of `line.replace(leading-bullet-regex, '').trim()`: with the trailing trim,
the anchored replacement of a bullet run plus following whitespace is
dropping leading bullet-class characters and trimming. -/
def stripBullet (cs : List Char) : List Char :=
  trimList (cs.dropWhile isBulletChar)

/-- Lines 242-243 / 375-376: split the reply into lines, keep lines whose
trimmed length exceeds 10, take the first 4, strip leading bullets. -/
def fallbackObservations (textContent : String) : List String :=
  let lines := splitNl textContent.data
  let kept := lines.filter (fun l => 10 < (trimList l).length)
  (kept.take 4).map (fun l => String.mk (stripBullet l))

/-- The default observation set of the Claude heuristic tier (lines 248-253). -/
def claudeDefaultObs : List String :=
  ["Analysis completed but response format was unexpected",
   "Technical analysis performed on image structure",
   "Review recommended for accuracy verification",
   "Consider manual inspection for confirmation"]

/-- The default observation set of the DeepSeek heuristic tier (lines 381-386). -/
def deepseekDefaultObs : List String :=
  ["Analysis completed with limited data",
   "Technical pattern analysis performed",
   "Manual review recommended for accuracy",
   "Consider additional verification methods"]

/-- The `catch (parseErr)` heuristic tier of `analyzeWithClaude`
(lines 232-255): keyword scan over the lowercased reply (keywords
`ai-generated`, `artificial`, `generated`, `fake`), fixed confidence 70,
line-based observations with the default set when none are extracted. -/
def claudeHeuristic (textContent : String) : AnalysisResult :=
  let textLower := textContent.data.map Char.toLower
  let obs := fallbackObservations textContent
  { isOriginal :=
      !listContains textLower "ai-generated".data &&
      !listContains textLower "artificial".data &&
      !listContains textLower "generated".data &&
      !listContains textLower "fake".data
    confidence := 70
    summary := (if 0 < obs.length then obs else claudeDefaultObs).map JsValue.str
    analysisMethod := "claude-api-fallback"
    fallbackReason := none }

/-- The `catch (parseErr)` heuristic tier of `analyzeWithDeepSeek`
(lines 366-388): as the Claude tier but its keyword set omits `fake` and it
has its own default observation set and tag. -/
def deepseekHeuristic (textContent : String) : AnalysisResult :=
  let textLower := textContent.data.map Char.toLower
  let obs := fallbackObservations textContent
  { isOriginal :=
      !listContains textLower "ai-generated".data &&
      !listContains textLower "artificial".data &&
      !listContains textLower "generated".data
    confidence := 70
    summary := (if 0 < obs.length then obs else deepseekDefaultObs).map JsValue.str
    analysisMethod := "deepseek-api-fallback"
    fallbackReason := none }

/-- Processing of a successfully fetched Claude reply (lines 203-256):
strict parse, else heuristic tier. -/
def claudeReplyResult (textContent : String) : AnalysisResult :=
  match strictParse textContent.data with
  | some (b, c, obs) => claudeStrictResult b c obs
  | none => claudeHeuristic textContent

/-- Processing of a successfully fetched DeepSeek reply (lines 337-389). -/
def deepseekReplyResult (textContent : String) : AnalysisResult :=
  match strictParse textContent.data with
  | some (b, c, obs) => deepseekStrictResult b c obs
  | none => deepseekHeuristic textContent

/-- Outcome of the outbound `fetch` call, as seen by the analysis function:
a transport failure (the promise rejects with `msg`), a non-2xx HTTP
response (`response.ok` false, with status and body text), or a 2xx
response whose extracted reply text is `textContent`. -/
inductive FetchOutcome where
  | networkError (msg : String)
  | httpError (status : Nat) (errorText : String)
  | success (textContent : String)

/-- The error message thrown on a non-2xx Claude response (line 200). -/
def claudeErrorMessage (status : Nat) (errorText : String) : String :=
  "Claude API error: " ++ toString status ++ " - " ++ errorText

/-- The error message thrown on a non-2xx DeepSeek response (line 334). -/
def deepseekErrorMessage (status : Nat) (errorText : String) : String :=
  "DeepSeek API error: " ++ toString status ++ " - " ++ errorText

/-- Function `analyzeWithClaude` (lines 129-269): transport failures and non-2xx
statuses are caught by the outer `catch (apiError)` and produce the
mock-fallback result carrying the error message; a fetched reply goes
through strict parse / heuristic. -/
def analyzeWithClaude (outcome : FetchOutcome) (r1 r2 : ℚ) : AnalysisResult :=
  match outcome with
  | .networkError msg => mockFallbackResult msg r1 r2
  | .httpError status errorText => mockFallbackResult (claudeErrorMessage status errorText) r1 r2
  | .success textContent => claudeReplyResult textContent

/-- Function `analyzeWithDeepSeek` (lines 272-402). -/
def analyzeWithDeepSeek (outcome : FetchOutcome) (r1 r2 : ℚ) : AnalysisResult :=
  match outcome with
  | .networkError msg => mockFallbackResult msg r1 r2
  | .httpError status errorText => mockFallbackResult (deepseekErrorMessage status errorText) r1 r2
  | .success textContent => deepseekReplyResult textContent

/-- The three analyzers a request can be routed to. -/
inductive Provider where
  | claude
  | deepseek
  | mock
deriving DecidableEq

/-- The environment configuration read at startup (lines 17-18). -/
structure Env where
  claudeKey : Option String
  deepseekKey : Option String

/-- JavaScript truthiness of an environment variable: `undefined` and the
empty string are falsy, any other string is truthy. -/
def truthy : Option String → Bool
  | none => false
  | some s => decide (s ≠ "")

/-- The static priority chain Claude then DeepSeek then Mock, as documented
at line 71 and implemented by the `if`/`else if`/`else` at lines 73-83. -/
def selectProvider (c d : Bool) : Provider :=
  if c then .claude else if d then .deepseek else .mock

/-- The provider-selection block of the `/analyze` handler (lines 72-83).
The outcomes the two provider calls would produce are passed in; the
returned list records which analyzers the handler actually invoked.  The
branch conditions read only the two key variables, never the request
content. -/
def analyzeDispatch (env : Env) (claudeOutcome deepseekOutcome : FetchOutcome) (r1 r2 : ℚ) :
    AnalysisResult × List Provider :=
  if truthy env.claudeKey then (analyzeWithClaude claudeOutcome r1 r2, [Provider.claude])
  else if truthy env.deepseekKey then (analyzeWithDeepSeek deepseekOutcome r1 r2, [Provider.deepseek])
  else (performMockAnalysis r1 r2, [Provider.mock])

/-- The markdown fence wrapper with a `json` language tag. -/
def wrapJsonFence (t : String) : String := "```json\n" ++ t ++ "\n```"

/-- The markdown fence wrapper without a language tag. -/
def wrapPlainFence (t : String) : String := "```\n" ++ t ++ "\n```"

/-! ## Helper lemmas -/

theorem hasPrefixL_iff (pat : List Char) : ∀ cs, hasPrefixL pat cs = true ↔ ∃ r, cs = pat ++ r := by
  induction pat with
  | nil => intro cs; simp [hasPrefixL]
  | cons p ps ih =>
    intro cs
    cases cs with
    | nil => simp [hasPrefixL]
    | cons c rest =>
      simp only [hasPrefixL, Bool.and_eq_true, decide_eq_true_eq, ih rest, List.cons_append]
      constructor
      · rintro ⟨hpc, r, hr⟩
        exact ⟨r, by rw [hpc, hr]⟩
      · rintro ⟨r, hr⟩
        obtain ⟨h1, h2⟩ := List.cons.inj hr
        exact ⟨h1.symm, r, h2⟩

theorem hasPrefixL_append_self (pat r : List Char) : hasPrefixL pat (pat ++ r) = true :=
  (hasPrefixL_iff pat (pat ++ r)).mpr ⟨r, rfl⟩

theorem listContains_iff (cs pat : List Char) :
    listContains cs pat = true ↔ ∃ l r, cs = l ++ pat ++ r := by
  unfold listContains
  rw [List.any_eq_true]
  constructor
  · rintro ⟨i, _, hp⟩
    obtain ⟨r, hr⟩ := (hasPrefixL_iff pat (cs.drop i)).mp hp
    exact ⟨cs.take i, r, by rw [List.append_assoc, ← hr, List.take_append_drop]⟩
  · rintro ⟨l, r, hr⟩
    refine ⟨l.length, ?_, ?_⟩
    · rw [List.mem_range, hr]
      simp only [List.append_assoc, List.length_append]
      omega
    · rw [hr, List.append_assoc, List.drop_left]
      exact hasPrefixL_append_self pat r

theorem listContains_false_of_part {cs u pat : List Char}
    (h : listContains cs pat = false) {a b : List Char} (hu : cs = a ++ u ++ b) :
    listContains u pat = false := by
  by_contra hne
  have ht : listContains u pat = true := by
    cases hval : listContains u pat
    · exact absurd hval hne
    · rfl
  obtain ⟨l, r, hr⟩ := (listContains_iff u pat).mp ht
  have : listContains cs pat = true :=
    (listContains_iff cs pat).mpr ⟨a ++ l, r ++ b, by rw [hu, hr]; simp [List.append_assoc]⟩
  rw [h] at this
  exact absurd this (by simp)

theorem trimList_part (cs : List Char) : ∃ a b, cs = a ++ trimList cs ++ b := by
  refine ⟨cs.takeWhile isJsWs, ((cs.dropWhile isJsWs).reverse.takeWhile isJsWs).reverse, ?_⟩
  unfold trimList
  conv_lhs => rw [← List.takeWhile_append_dropWhile (p := isJsWs) (l := cs)]
  rw [List.append_assoc]
  congr 1
  conv_lhs => rw [← List.reverse_reverse (cs.dropWhile isJsWs)]
  conv_lhs =>
    rw [← List.takeWhile_append_dropWhile (p := isJsWs) (l := (cs.dropWhile isJsWs).reverse)]
  rw [List.reverse_append]

theorem trimList_append_newline (cs : List Char) : trimList (cs ++ ['\n']) = trimList cs := by
  unfold trimList
  rw [List.dropWhile_append]
  cases hd : (cs.dropWhile isJsWs).isEmpty
  · simp only [hd, Bool.false_eq_true, if_false]
    rw [List.reverse_append]
    simp [List.dropWhile, isJsWs]
  · simp only [hd, if_true]
    have : cs.dropWhile isJsWs = [] := List.isEmpty_iff.mp hd
    simp [this, List.dropWhile, isJsWs]

theorem trimList_sandwich {c d : Char} (mid : List Char)
    (hc : isJsWs c = false) (hd : isJsWs d = false) :
    trimList (c :: (mid ++ [d])) = c :: (mid ++ [d]) := by
  unfold trimList
  rw [List.dropWhile_cons, hc]
  simp only [Bool.false_eq_true, if_false]
  rw [List.reverse_cons, List.reverse_append, List.reverse_singleton, List.singleton_append,
    List.cons_append, List.dropWhile_cons, hd]
  simp only [Bool.false_eq_true, if_false]
  simp [List.reverse_append]

theorem replAux_nil (m : List Char → Option Nat) (f : Nat) : replAux m f [] = [] := by
  cases f <;> rfl

theorem mJson_pos (cs : List Char) (k : Nat) (h : mJson cs = some k) : 1 ≤ k := by
  unfold mJson at h
  split at h
  · by_cases h2 : (cs.drop 7).head? = some '\n' <;> simp [h2] at h <;> omega
  · exact absurd h (by simp)

theorem mPlain_pos (cs : List Char) (k : Nat) (h : mPlain cs = some k) : 1 ≤ k := by
  unfold mPlain at h
  split at h
  · by_cases h2 : (cs.drop 3).head? = some '\n' <;> simp [h2] at h <;> omega
  · exact absurd h (by simp)

theorem replAux_fuel (m : List Char → Option Nat) (hm : ∀ cs k, m cs = some k → 1 ≤ k) :
    ∀ f f' cs, cs.length ≤ f → cs.length ≤ f' → replAux m f cs = replAux m f' cs := by
  intro f
  induction f with
  | zero =>
    intro f' cs h1 _
    have : cs = [] := List.eq_nil_of_length_eq_zero (Nat.le_zero.mp h1)
    subst this
    rw [replAux_nil, replAux_nil]
  | succ f ih =>
    intro f' cs h1 h2
    cases cs with
    | nil => rw [replAux_nil, replAux_nil]
    | cons c rest =>
      cases f' with
      | zero => simp at h2
      | succ f'' =>
        simp only [replAux]
        cases hm' : m (c :: rest) with
        | none =>
          simp only []
          have hr : rest.length ≤ f := by simp at h1; omega
          have hr' : rest.length ≤ f'' := by simp at h2; omega
          rw [ih f'' rest hr hr']
        | some k =>
          simp only []
          have hk := hm _ _ hm'
          have hl : (List.drop k (c :: rest)).length ≤ f := by
            simp only [List.length_drop, List.length_cons]
            simp at h1
            omega
          have hl' : (List.drop k (c :: rest)).length ≤ f'' := by
            simp only [List.length_drop, List.length_cons]
            simp at h2
            omega
          exact ih f'' _ hl hl'

theorem replAux_append (m : List Char → Option Nat) (tail : List Char) :
    ∀ cs f, (∀ i, i < cs.length → m (cs.drop i ++ tail) = none) →
    replAux m (cs.length + f) (cs ++ tail) = cs ++ replAux m f tail := by
  intro cs
  induction cs with
  | nil => intro f _; simp
  | cons c rest ih =>
    intro f h
    rw [show (c :: rest).length + f = (rest.length + f) + 1 by simp [List.length_cons]; omega]
    rw [List.cons_append]
    have h0 : m (c :: (rest ++ tail)) = none := by
      have := h 0 (by simp)
      simpa using this
    simp only [replAux, h0]
    have hrest : ∀ i, i < rest.length → m (rest.drop i ++ tail) = none := by
      intro i hi
      have := h (i + 1) (by simp; omega)
      simpa using this
    rw [ih f hrest]
    simp

theorem noFenceAt {cs tail : List Char} (hNo : listContains cs fence3 = false)
    (hTail : tail.head? ≠ some tick) :
    ∀ i, i < cs.length → hasPrefixL fence3 (cs.drop i ++ tail) = false := by
  intro i hi
  cases hval : hasPrefixL fence3 (cs.drop i ++ tail)
  · rfl
  · exfalso
    obtain ⟨r, hr⟩ := (hasPrefixL_iff fence3 _).mp hval
    have hcs : cs = cs.take i ++ cs.drop i := (List.take_append_drop i cs).symm
    have hulen : 0 < (cs.drop i).length := by
      simp only [List.length_drop]
      omega
    cases hu : cs.drop i with
    | nil => rw [hu] at hulen; simp at hulen
    | cons a u1 =>
      rw [hu] at hr
      cases u1 with
      | nil =>
        simp only [fence3, List.cons_append, List.nil_append] at hr
        obtain ⟨-, h2⟩ := List.cons.inj hr
        rw [h2] at hTail
        simp at hTail
      | cons b u2 =>
        cases u2 with
        | nil =>
          simp only [fence3, List.cons_append, List.nil_append] at hr
          obtain ⟨-, h2⟩ := List.cons.inj hr
          obtain ⟨-, h3⟩ := List.cons.inj h2
          rw [h3] at hTail
          simp at hTail
        | cons e u3 =>
          simp only [fence3, List.cons_append, List.nil_append] at hr
          obtain ⟨ha, h2⟩ := List.cons.inj hr
          obtain ⟨hb, h3⟩ := List.cons.inj h2
          obtain ⟨he, -⟩ := List.cons.inj h3
          have : listContains cs fence3 = true := by
            refine (listContains_iff cs fence3).mpr ⟨cs.take i, u3, ?_⟩
            conv_lhs => rw [hcs, hu]
            rw [ha, hb, he]
            simp [fence3]
          rw [hNo] at this
          exact absurd this (by simp)

theorem mJson_none_of {cs tail : List Char} (hNo : listContains cs fence3 = false)
    (hTail : tail.head? ≠ some tick) :
    ∀ i, i < cs.length → mJson (cs.drop i ++ tail) = none := by
  intro i hi
  unfold mJson isJsonFenceAt
  rw [noFenceAt hNo hTail i hi]
  simp

theorem mPlain_none_of {cs tail : List Char} (hNo : listContains cs fence3 = false)
    (hTail : tail.head? ≠ some tick) :
    ∀ i, i < cs.length → mPlain (cs.drop i ++ tail) = none := by
  intro i hi
  unfold mPlain
  rw [noFenceAt hNo hTail i hi]
  simp

theorem replAux_cons_some (m : List Char → Option Nat) (c : Char) (rest : List Char)
    (f k : Nat) (h : m (c :: rest) = some k) :
    replAux m (f + 1) (c :: rest) = replAux m f ((c :: rest).drop k) := by
  simp [replAux, h]

theorem replAux_cons_none (m : List Char → Option Nat) (c : Char) (rest : List Char)
    (f : Nat) (h : m (c :: rest) = none) :
    replAux m (f + 1) (c :: rest) = c :: replAux m f rest := by
  simp [replAux, h]

theorem mJson_jheader (x : List Char) :
    mJson (tick :: tick :: tick :: 'j' :: 's' :: 'o' :: 'n' :: '\n' :: x) = some 8 := by
  have h1 : hasPrefixL fence3 (tick :: tick :: tick :: 'j' :: 's' :: 'o' :: 'n' :: '\n' :: x) = true := by
    simp [fence3, hasPrefixL]
  have h2 : ((tick :: tick :: tick :: 'j' :: 's' :: 'o' :: 'n' :: '\n' :: x).drop 3).take 4
      = ['j', 's', 'o', 'n'] := by simp
  have h3 : (['j', 's', 'o', 'n'].map Char.toLower = "json".data) := by decide
  unfold mJson isJsonFenceAt
  rw [h1, h2]
  simp [h3]

theorem mJson_no_json_tag (y : List Char) :
    decide ((('\n' :: y).map Char.toLower) = "json".data) = false := by
  rw [decide_eq_false_iff_not]
  intro h
  rw [show "json".data = ['j', 's', 'o', 'n'] from by decide] at h
  simp only [List.map_cons] at h
  obtain ⟨h1, -⟩ := List.cons.inj h
  exact absurd h1 (by decide)

theorem mJson_pheader (x : List Char) :
    mJson (tick :: tick :: tick :: '\n' :: x) = none := by
  have h2 : ((tick :: tick :: tick :: '\n' :: x).drop 3).take 4 = '\n' :: x.take 3 := by simp
  unfold mJson isJsonFenceAt
  rw [h2, mJson_no_json_tag]
  simp

theorem mPlain_pheader (x : List Char) :
    mPlain (tick :: tick :: tick :: '\n' :: x) = some 4 := by
  have h1 : hasPrefixL fence3 (tick :: tick :: tick :: '\n' :: x) = true := by
    simp [fence3, hasPrefixL]
  unfold mPlain
  rw [h1]
  simp

theorem mJson_none_short1 (x : List Char) : mJson (tick :: tick :: '\n' :: x) = none := by
  have h1 : hasPrefixL fence3 (tick :: tick :: '\n' :: x) = false := by
    simp [fence3, hasPrefixL]
    intro h
    exact absurd h (by decide)
  unfold mJson isJsonFenceAt
  rw [h1]
  simp

theorem mJson_none_short2 (x : List Char) : mJson (tick :: '\n' :: x) = none := by
  have h1 : hasPrefixL fence3 (tick :: '\n' :: x) = false := by
    simp [fence3, hasPrefixL]
    intro h
    exact absurd h (by decide)
  unfold mJson isJsonFenceAt
  rw [h1]
  simp

theorem mJson_none_nl (x : List Char) : mJson ('\n' :: x) = none := by
  have h1 : hasPrefixL fence3 ('\n' :: x) = false := by
    simp [fence3, hasPrefixL]
    intro h
    exact absurd h (by decide)
  unfold mJson isJsonFenceAt
  rw [h1]
  simp

theorem stripJson_wrapJ (cs : List Char) (hNo : listContains cs fence3 = false) :
    stripJsonFence
      (tick :: tick :: tick :: 'j' :: 's' :: 'o' :: 'n' :: '\n' :: (cs ++ ['\n', tick, tick, tick]))
      = cs ++ ['\n', tick, tick, tick] := by
  unfold stripJsonFence
  rw [show (tick :: tick :: tick :: 'j' :: 's' :: 'o' :: 'n' :: '\n' ::
      (cs ++ ['\n', tick, tick, tick])).length = (cs.length + 11) + 1 from by simp]
  rw [replAux_cons_some mJson _ _ _ 8 (mJson_jheader _)]
  rw [show (tick :: tick :: tick :: 'j' :: 's' :: 'o' :: 'n' :: '\n' ::
      (cs ++ ['\n', tick, tick, tick])).drop 8 = cs ++ ['\n', tick, tick, tick] from by simp]
  rw [replAux_fuel mJson mJson_pos (cs.length + 11) (cs.length + 4) _
    (by simp) (by simp)]
  rw [replAux_append mJson _ cs 4 (mJson_none_of hNo (by decide))]
  rw [show replAux mJson 4 ['\n', tick, tick, tick] = ['\n', tick, tick, tick] from by decide]

theorem stripPlain_afterJ (cs : List Char) (hNo : listContains cs fence3 = false) :
    stripPlainFence (cs ++ ['\n', tick, tick, tick]) = cs ++ ['\n'] := by
  unfold stripPlainFence
  rw [show (cs ++ ['\n', tick, tick, tick]).length = cs.length + 4 from by simp]
  rw [replAux_append mPlain _ cs 4 (mPlain_none_of hNo (by decide))]
  rw [show replAux mPlain 4 ['\n', tick, tick, tick] = ['\n'] from by decide]

theorem stripJson_wrapP (cs : List Char) (hNo : listContains cs fence3 = false) :
    stripJsonFence (tick :: tick :: tick :: '\n' :: (cs ++ ['\n', tick, tick, tick]))
      = tick :: tick :: tick :: '\n' :: (cs ++ ['\n', tick, tick, tick]) := by
  unfold stripJsonFence
  have hform : tick :: tick :: tick :: '\n' :: (cs ++ ['\n', tick, tick, tick])
      = ([tick, tick, tick, '\n'] ++ cs) ++ ['\n', tick, tick, tick] := by simp
  rw [hform]
  rw [show (([tick, tick, tick, '\n'] ++ cs) ++ ['\n', tick, tick, tick]).length
      = ([tick, tick, tick, '\n'] ++ cs).length + 4 from by simp]
  have hcond : ∀ i, i < ([tick, tick, tick, '\n'] ++ cs).length →
      mJson (([tick, tick, tick, '\n'] ++ cs).drop i ++ ['\n', tick, tick, tick]) = none := by
    intro i hi
    match i with
    | 0 =>
      rw [show (([tick, tick, tick, '\n'] ++ cs).drop 0 ++ ['\n', tick, tick, tick])
          = tick :: tick :: tick :: '\n' :: (cs ++ ['\n', tick, tick, tick]) from by simp]
      exact mJson_pheader _
    | 1 =>
      rw [show (([tick, tick, tick, '\n'] ++ cs).drop 1 ++ ['\n', tick, tick, tick])
          = tick :: tick :: '\n' :: (cs ++ ['\n', tick, tick, tick]) from by simp]
      exact mJson_none_short1 _
    | 2 =>
      rw [show (([tick, tick, tick, '\n'] ++ cs).drop 2 ++ ['\n', tick, tick, tick])
          = tick :: '\n' :: (cs ++ ['\n', tick, tick, tick]) from by simp]
      exact mJson_none_short2 _
    | 3 =>
      rw [show (([tick, tick, tick, '\n'] ++ cs).drop 3 ++ ['\n', tick, tick, tick])
          = '\n' :: (cs ++ ['\n', tick, tick, tick]) from by simp]
      exact mJson_none_nl _
    | (i + 4) =>
      rw [show (([tick, tick, tick, '\n'] ++ cs).drop (i + 4)) = cs.drop i from by simp]
      have hi' : i < cs.length := by simp at hi; omega
      exact mJson_none_of hNo (by decide) i hi'
  rw [replAux_append mJson _ ([tick, tick, tick, '\n'] ++ cs) 4 hcond]
  rw [show replAux mJson 4 ['\n', tick, tick, tick] = ['\n', tick, tick, tick] from by decide]

theorem stripPlain_wrapP (cs : List Char) (hNo : listContains cs fence3 = false) :
    stripPlainFence (tick :: tick :: tick :: '\n' :: (cs ++ ['\n', tick, tick, tick]))
      = cs ++ ['\n'] := by
  unfold stripPlainFence
  rw [show (tick :: tick :: tick :: '\n' :: (cs ++ ['\n', tick, tick, tick])).length
      = (cs.length + 7) + 1 from by simp]
  rw [replAux_cons_some mPlain _ _ _ 4 (mPlain_pheader _)]
  rw [show (tick :: tick :: tick :: '\n' :: (cs ++ ['\n', tick, tick, tick])).drop 4
      = cs ++ ['\n', tick, tick, tick] from by simp]
  rw [replAux_fuel mPlain mPlain_pos (cs.length + 7) (cs.length + 4) _
    (by simp) (by simp)]
  rw [replAux_append mPlain _ cs 4 (mPlain_none_of hNo (by decide))]
  rw [show replAux mPlain 4 ['\n', tick, tick, tick] = ['\n'] from by decide]

theorem wrapJson_data (t : String) :
    (wrapJsonFence t).data
      = tick :: tick :: tick :: 'j' :: 's' :: 'o' :: 'n' :: '\n' :: (t.data ++ ['\n', tick, tick, tick]) := by
  unfold wrapJsonFence
  rw [String.data_append, String.data_append]
  rw [show "```json\n".data = [tick, tick, tick, 'j', 's', 'o', 'n', '\n'] from by decide,
    show "\n```".data = ['\n', tick, tick, tick] from by decide]
  simp

theorem wrapPlain_data (t : String) :
    (wrapPlainFence t).data
      = tick :: tick :: tick :: '\n' :: (t.data ++ ['\n', tick, tick, tick]) := by
  unfold wrapPlainFence
  rw [String.data_append, String.data_append]
  rw [show "```\n".data = [tick, tick, tick, '\n'] from by decide,
    show "\n```".data = ['\n', tick, tick, tick] from by decide]
  simp

theorem trimList_inner_nofence {cs : List Char} (hNo : listContains cs fence3 = false) :
    listContains (trimList cs) fence3 = false := by
  obtain ⟨a, b, hab⟩ := trimList_part cs
  exact listContains_false_of_part hNo hab

theorem extract_wrapJson (t : String) (hNo : listContains t.data fence3 = false) :
    extractJsonTextL ((wrapJsonFence t).data) = extractJsonTextL t.data := by
  have htrim : trimList ((wrapJsonFence t).data) = (wrapJsonFence t).data := by
    rw [wrapJson_data]
    rw [show tick :: tick :: tick :: 'j' :: 's' :: 'o' :: 'n' :: '\n' ::
        (t.data ++ ['\n', tick, tick, tick])
        = tick :: (([tick, tick, 'j', 's', 'o', 'n', '\n'] ++ t.data ++ ['\n', tick, tick]) ++ [tick])
        from by simp]
    exact trimList_sandwich _ (by decide) (by decide)
  have hcont : listContains ((wrapJsonFence t).data) fence3 = true := by
    rw [wrapJson_data]
    exact (listContains_iff _ _).mpr
      ⟨[], 'j' :: 's' :: 'o' :: 'n' :: '\n' :: (t.data ++ ['\n', tick, tick, tick]), by simp [fence3]⟩
  unfold extractJsonTextL
  rw [htrim]
  simp only [hcont, trimList_inner_nofence hNo, if_true, Bool.false_eq_true, if_false]
  congr 1
  rw [wrapJson_data, stripJson_wrapJ t.data hNo, stripPlain_afterJ t.data hNo,
    trimList_append_newline]

theorem extract_wrapPlain (t : String) (hNo : listContains t.data fence3 = false) :
    extractJsonTextL ((wrapPlainFence t).data) = extractJsonTextL t.data := by
  have htrim : trimList ((wrapPlainFence t).data) = (wrapPlainFence t).data := by
    rw [wrapPlain_data]
    rw [show tick :: tick :: tick :: '\n' :: (t.data ++ ['\n', tick, tick, tick])
        = tick :: (([tick, tick, '\n'] ++ t.data ++ ['\n', tick, tick]) ++ [tick])
        from by simp]
    exact trimList_sandwich _ (by decide) (by decide)
  have hcont : listContains ((wrapPlainFence t).data) fence3 = true := by
    rw [wrapPlain_data]
    exact (listContains_iff _ _).mpr
      ⟨[], '\n' :: (t.data ++ ['\n', tick, tick, tick]), by simp [fence3]⟩
  unfold extractJsonTextL
  rw [htrim]
  simp only [hcont, trimList_inner_nofence hNo, if_true, Bool.false_eq_true, if_false]
  congr 1
  rw [wrapPlain_data, stripJson_wrapP t.data hNo, stripPlain_wrapP t.data hNo,
    trimList_append_newline]

theorem strictParse_wrapJson (t : String) (hNo : listContains t.data fence3 = false) :
    strictParse ((wrapJsonFence t).data) = strictParse t.data := by
  unfold strictParse
  rw [extract_wrapJson t hNo]

theorem strictParse_wrapPlain (t : String) (hNo : listContains t.data fence3 = false) :
    strictParse ((wrapPlainFence t).data) = strictParse t.data := by
  unfold strictParse
  rw [extract_wrapPlain t hNo]

theorem clamp_bounds (a : ℤ) : 0 ≤ min 100 (max 0 a) ∧ min 100 (max 0 a) ≤ 100 :=
  ⟨le_min (by norm_num) (le_max_left 0 a), min_le_left _ _⟩

theorem mock_confidence_bounds (r1 r2 : ℚ) (h1 : 0 ≤ r2) (h2 : r2 < 1) :
    75 ≤ (performMockAnalysis r1 r2).confidence ∧ (performMockAnalysis r1 r2).confidence ≤ 95 := by
  have hconf : (performMockAnalysis r1 r2).confidence = ⌊r2 * 21⌋ + 75 := rfl
  have hn : (0 : ℤ) ≤ ⌊r2 * 21⌋ := Int.floor_nonneg.mpr (by positivity)
  have hlt : ⌊r2 * 21⌋ < 21 := by
    have h : (r2 * 21 : ℚ) < 21 := by nlinarith
    exact Int.floor_lt.mpr (by push_cast; linarith)
  omega

theorem padded_map_ne_nil (obs dflt : List String) (hd : dflt ≠ []) :
    ((if 0 < obs.length then obs else dflt).map JsValue.str) ≠ [] := by
  by_cases h : 0 < obs.length
  · simp only [h, if_true]
    intro hcontra
    rw [List.map_eq_nil_iff] at hcontra
    rw [hcontra] at h
    simp at h
  · simp only [h, if_false]
    intro hcontra
    rw [List.map_eq_nil_iff] at hcontra
    exact hd hcontra

theorem claudeHeuristic_summary_ne_nil (t : String) : (claudeHeuristic t).summary ≠ [] := by
  have := padded_map_ne_nil (fallbackObservations t) claudeDefaultObs (by simp [claudeDefaultObs])
  simpa [claudeHeuristic] using this

theorem deepseekHeuristic_summary_ne_nil (t : String) : (deepseekHeuristic t).summary ≠ [] := by
  have := padded_map_ne_nil (fallbackObservations t) deepseekDefaultObs (by simp [deepseekDefaultObs])
  simpa [deepseekHeuristic] using this

/-- C1: the analysis functions never raise to the `/analyze` handler: a
transport error or non-2xx status is caught and turned into the
`performMockAnalysis` result with `analysisMethod` overwritten to
`"mock-fallback"` and `fallbackReason` set to the triggering error's
message; and across every outcome, `fallbackReason` is present on the
result exactly when its `analysisMethod` is `"mock-fallback"`. -/
theorem fallback_absorption_and_reason_tagging (msg errTxt : String) (status : Nat)
    (outcome : FetchOutcome) (r1 r2 : ℚ) :
    analyzeWithClaude (.networkError msg) r1 r2
      = { performMockAnalysis r1 r2 with
          analysisMethod := "mock-fallback", fallbackReason := some msg } ∧
    analyzeWithClaude (.httpError status errTxt) r1 r2
      = { performMockAnalysis r1 r2 with
          analysisMethod := "mock-fallback",
          fallbackReason := some (claudeErrorMessage status errTxt) } ∧
    analyzeWithDeepSeek (.networkError msg) r1 r2
      = { performMockAnalysis r1 r2 with
          analysisMethod := "mock-fallback", fallbackReason := some msg } ∧
    analyzeWithDeepSeek (.httpError status errTxt) r1 r2
      = { performMockAnalysis r1 r2 with
          analysisMethod := "mock-fallback",
          fallbackReason := some (deepseekErrorMessage status errTxt) } ∧
    ((analyzeWithClaude outcome r1 r2).fallbackReason.isSome = true
      ↔ (analyzeWithClaude outcome r1 r2).analysisMethod = "mock-fallback") ∧
    ((analyzeWithDeepSeek outcome r1 r2).fallbackReason.isSome = true
      ↔ (analyzeWithDeepSeek outcome r1 r2).analysisMethod = "mock-fallback") := by
  refine ⟨rfl, rfl, rfl, rfl, ?_, ?_⟩
  · cases outcome with
    | networkError m => simp [analyzeWithClaude, mockFallbackResult]
    | httpError s e => simp [analyzeWithClaude, mockFallbackResult]
    | success txt =>
      show (claudeReplyResult txt).fallbackReason.isSome = true
        ↔ (claudeReplyResult txt).analysisMethod = "mock-fallback"
      unfold claudeReplyResult
      cases hp : strictParse txt.data with
      | some pr =>
        obtain ⟨b, c, obs⟩ := pr
        simp only [claudeStrictResult, Option.isSome_none]
        constructor
        · intro h; exact absurd h (by simp)
        · intro h; exact absurd h (by decide)
      | none =>
        simp only [claudeHeuristic]
        constructor
        · intro h; exact absurd h (by simp)
        · intro h; exact absurd h (by decide)
  · cases outcome with
    | networkError m => simp [analyzeWithDeepSeek, mockFallbackResult]
    | httpError s e => simp [analyzeWithDeepSeek, mockFallbackResult]
    | success txt =>
      show (deepseekReplyResult txt).fallbackReason.isSome = true
        ↔ (deepseekReplyResult txt).analysisMethod = "mock-fallback"
      unfold deepseekReplyResult
      cases hp : strictParse txt.data with
      | some pr =>
        obtain ⟨b, c, obs⟩ := pr
        simp only [deepseekStrictResult, Option.isSome_none]
        constructor
        · intro h; exact absurd h (by simp)
        · intro h; exact absurd h (by decide)
      | none =>
        simp only [deepseekHeuristic]
        constructor
        · intro h; exact absurd h (by simp)
        · intro h; exact absurd h (by decide)

/-- Confidence bounds of a fetched-reply result (strict or heuristic tier). -/
theorem claudeReply_confidence_bounds (txt : String) :
    0 ≤ (claudeReplyResult txt).confidence ∧ (claudeReplyResult txt).confidence ≤ 100 := by
  unfold claudeReplyResult
  cases hp : strictParse txt.data with
  | some pr =>
    obtain ⟨b, c, obs⟩ := pr
    simp [claudeStrictResult]
  | none =>
    constructor <;> norm_num [claudeHeuristic]

theorem deepseekReply_confidence_bounds (txt : String) :
    0 ≤ (deepseekReplyResult txt).confidence ∧ (deepseekReplyResult txt).confidence ≤ 100 := by
  unfold deepseekReplyResult
  cases hp : strictParse txt.data with
  | some pr =>
    obtain ⟨b, c, obs⟩ := pr
    simp [deepseekStrictResult]
  | none =>
    constructor <;> norm_num [deepseekHeuristic]

/-- C2: every path yields an integer confidence in `[0,100]`: the strict
paths clamp `Math.round` of the provider number (confidence 150 clamps to
exactly 100, an in-range number is just rounded), the heuristic tiers
return 70, and the mock generator an integer in `[75,95]`. -/
theorem confidence_always_in_range (co deo : FetchOutcome) (t : String)
    (r1 r2 c : ℚ) (b : Bool) (obs : List JsValue)
    (h1 : 0 ≤ r2) (h2 : r2 < 1) (hc0 : 0 ≤ c) (hc1 : c ≤ 100) :
    (0 ≤ (analyzeWithClaude co r1 r2).confidence
      ∧ (analyzeWithClaude co r1 r2).confidence ≤ 100) ∧
    (0 ≤ (analyzeWithDeepSeek deo r1 r2).confidence
      ∧ (analyzeWithDeepSeek deo r1 r2).confidence ≤ 100) ∧
    (75 ≤ (performMockAnalysis r1 r2).confidence
      ∧ (performMockAnalysis r1 r2).confidence ≤ 95) ∧
    (claudeStrictResult b c obs).confidence = round c ∧
    (claudeStrictResult b 150 obs).confidence = 100 ∧
    (deepseekStrictResult b 150 obs).confidence = 100 ∧
    (claudeHeuristic t).confidence = 70 ∧
    (deepseekHeuristic t).confidence = 70 := by
  have hmock := mock_confidence_bounds r1 r2 h1 h2
  have hclaude : 0 ≤ (analyzeWithClaude co r1 r2).confidence
      ∧ (analyzeWithClaude co r1 r2).confidence ≤ 100 := by
    cases co with
    | networkError m =>
      have heq : (analyzeWithClaude (.networkError m) r1 r2).confidence
          = (performMockAnalysis r1 r2).confidence := rfl
      rw [heq]
      omega
    | httpError s e =>
      have heq : (analyzeWithClaude (.httpError s e) r1 r2).confidence
          = (performMockAnalysis r1 r2).confidence := rfl
      rw [heq]
      omega
    | success txt => exact claudeReply_confidence_bounds txt
  have hdeep : 0 ≤ (analyzeWithDeepSeek deo r1 r2).confidence
      ∧ (analyzeWithDeepSeek deo r1 r2).confidence ≤ 100 := by
    cases deo with
    | networkError m =>
      have heq : (analyzeWithDeepSeek (.networkError m) r1 r2).confidence
          = (performMockAnalysis r1 r2).confidence := rfl
      rw [heq]
      omega
    | httpError s e =>
      have heq : (analyzeWithDeepSeek (.httpError s e) r1 r2).confidence
          = (performMockAnalysis r1 r2).confidence := rfl
      rw [heq]
      omega
    | success txt => exact deepseekReply_confidence_bounds txt
  have hround : min 100 (max 0 (round c)) = round c := by
    have hn : (0 : ℤ) ≤ round c := by
      rw [round_eq]
      exact Int.floor_nonneg.mpr (by linarith)
    have hu : round c ≤ 100 := by
      rw [round_eq]
      have hle : ⌊c + 1/2⌋ ≤ ⌊(100 : ℚ) + 1/2⌋ := Int.floor_le_floor (by linarith)
      have h100 : ⌊(100 : ℚ) + 1/2⌋ = 100 := by norm_num
      omega
    omega
  have h150 : round (150 : ℚ) = 150 := by norm_num
  refine ⟨hclaude, hdeep, hmock, hround, ?_, ?_, rfl, rfl⟩
  · show min 100 (max 0 (round (150 : ℚ))) = 100
    rw [h150]
    norm_num
  · show min 100 (max 0 (round (150 : ℚ))) = 100
    rw [h150]
    norm_num

theorem confidence_always_in_range_witness :
    75 ≤ (performMockAnalysis 0 0).confidence
      ∧ (performMockAnalysis 0 0).confidence ≤ 95 :=
  (confidence_always_in_range (.success "x") (.networkError "b") "y" 0 0 50 true []
    (by decide) (by decide) (by decide) (by decide)).2.2.1

/-- C3 counterexample: on the strict-parse path the `Array.isArray` check
accepts an empty `observations` array, so a provider reply whose
`observations` is `[]` produces a result with an empty `summary`: the
invariant `summary has at least one entry` fails on the strict path. -/
theorem strict_path_empty_summary_cex :
    (claudeReplyResult "\x7b\"isOriginal\":true,\"confidence\":80,\"observations\":[]\x7d").summary
      = []
    ∧ (claudeReplyResult
        "\x7b\"isOriginal\":true,\"confidence\":80,\"observations\":[]\x7d").analysisMethod
      = "claude-api" :=
  ⟨rfl, rfl⟩

/-- C3 (amended): `summary` is nonempty on the heuristic, mock and
mock-fallback paths; on the strict-parse path it is the provider-supplied
`observations` array passed through unchanged (so it is nonempty exactly
when the provider's array is). -/
theorem summary_nonempty_off_strict (t msg : String) (r1 r2 c : ℚ) (b : Bool)
    (obs : List JsValue) :
    (claudeHeuristic t).summary ≠ [] ∧
    (deepseekHeuristic t).summary ≠ [] ∧
    (performMockAnalysis r1 r2).summary ≠ [] ∧
    (mockFallbackResult msg r1 r2).summary ≠ [] ∧
    (claudeStrictResult b c obs).summary = obs ∧
    (deepseekStrictResult b c obs).summary = obs := by
  have hmock : (performMockAnalysis r1 r2).summary ≠ [] := by
    simp only [performMockAnalysis]
    split <;> simp [mockAuthObs, mockAiObs]
  refine ⟨claudeHeuristic_summary_ne_nil t, deepseekHeuristic_summary_ne_nil t, hmock, ?_, rfl, rfl⟩
  exact hmock

/-- C4: with both keys configured the handler invokes only the Claude
analyzer — a Claude failure yields a mock-fallback result and the DeepSeek
analyzer is never invoked for that request — and provider selection is the
static priority chain Claude, DeepSeek, Mock, computed from the two key
variables alone, independent of outcomes and randomness. -/
theorem claude_priority_no_cross_provider (ck dk : Option String) (co deo : FetchOutcome)
    (r1 r2 : ℚ) (msg errTxt : String) (status : Nat)
    (hc : truthy ck = true) (_hd : truthy dk = true) :
    (analyzeDispatch ⟨ck, dk⟩ co deo r1 r2).2 = [Provider.claude] ∧
    Provider.deepseek ∉ (analyzeDispatch ⟨ck, dk⟩ co deo r1 r2).2 ∧
    (analyzeDispatch ⟨ck, dk⟩ (.networkError msg) deo r1 r2).1
      = { performMockAnalysis r1 r2 with
          analysisMethod := "mock-fallback", fallbackReason := some msg } ∧
    (analyzeDispatch ⟨ck, dk⟩ (.httpError status errTxt) deo r1 r2).1
      = { performMockAnalysis r1 r2 with
          analysisMethod := "mock-fallback",
          fallbackReason := some (claudeErrorMessage status errTxt) } ∧
    (∀ (ck' dk' : Option String) (co' deo' : FetchOutcome) (r1' r2' : ℚ),
      (analyzeDispatch ⟨ck', dk'⟩ co' deo' r1' r2').2
        = [selectProvider (truthy ck') (truthy dk')]) := by
  refine ⟨by simp [analyzeDispatch, hc], by simp [analyzeDispatch, hc], ?_, ?_, ?_⟩
  · simp only [analyzeDispatch, hc, if_true]
    rfl
  · simp only [analyzeDispatch, hc, if_true]
    rfl
  · intro ck' dk' co' deo' r1' r2'
    by_cases hc' : truthy ck' = true
    · simp [analyzeDispatch, selectProvider, hc']
    · by_cases hd' : truthy dk' = true
      · simp [analyzeDispatch, selectProvider, hc', hd']
      · simp [analyzeDispatch, selectProvider, hc', hd']

theorem claude_priority_no_cross_provider_witness :
    (analyzeDispatch ⟨some "ck", some "dk"⟩ (.networkError "boom") (.success "") 0 0).2
      = [Provider.claude] :=
  (claude_priority_no_cross_provider (some "ck") (some "dk") (.networkError "boom")
    (.success "") 0 0 "boom" "err" 500 (by decide) (by decide)).1

/-- C5: whenever strict parsing fails, the heuristic tier returns a usable
result with confidence exactly 70 and the `<provider>-api-fallback` tag;
on the reply `This image shows clear AI-generated artifacts in the hands.`
(which contains no JSON) the full Claude path returns `isOriginal = false`
with confidence 70. -/
theorem heuristic_tier_fixed_confidence (t : String) :
    (claudeHeuristic t).confidence = 70 ∧
    (claudeHeuristic t).analysisMethod = "claude-api-fallback" ∧
    (claudeHeuristic t).summary ≠ [] ∧
    (deepseekHeuristic t).confidence = 70 ∧
    (deepseekHeuristic t).analysisMethod = "deepseek-api-fallback" ∧
    (deepseekHeuristic t).summary ≠ [] ∧
    (claudeReplyResult
      "This image shows clear AI-generated artifacts in the hands.").isOriginal = false ∧
    (claudeReplyResult
      "This image shows clear AI-generated artifacts in the hands.").confidence = 70 ∧
    (claudeReplyResult
      "This image shows clear AI-generated artifacts in the hands.").analysisMethod
      = "claude-api-fallback" :=
  ⟨rfl, rfl, claudeHeuristic_summary_ne_nil t, rfl, rfl, deepseekHeuristic_summary_ne_nil t,
    by decide, by decide, by decide⟩

/-- C6 counterexample: the heuristic tier pads only when it extracts zero
observations; a reply consisting of one long line yields a summary with a
single entry, not the claimed 4. -/
theorem heuristic_no_padding_cex :
    (claudeHeuristic "This is one single descriptive line about the image.").summary.length = 1
    ∧ (claudeHeuristic
        "This is one single descriptive line about the image.").summary.length ≠ 4 :=
  ⟨by decide, by decide⟩

/-- C6 (amended): the mock summaries have exactly 4 entries; the heuristic
tier extracts at most 4 observations and substitutes its fixed default
4-line set only when it extracted none — when it extracts between 1 and 4
it returns exactly those, without padding; the default sets have 4 lines. -/
theorem summary_padding_only_when_empty (t msg : String) (r1 r2 : ℚ) :
    (performMockAnalysis r1 r2).summary.length = 4 ∧
    (mockFallbackResult msg r1 r2).summary.length = 4 ∧
    (claudeHeuristic t).summary
      = (if (fallbackObservations t).isEmpty then claudeDefaultObs
         else fallbackObservations t).map JsValue.str ∧
    (deepseekHeuristic t).summary
      = (if (fallbackObservations t).isEmpty then deepseekDefaultObs
         else fallbackObservations t).map JsValue.str ∧
    (fallbackObservations t).length ≤ 4 ∧
    claudeDefaultObs.length = 4 ∧
    deepseekDefaultObs.length = 4 := by
  have hmock : (performMockAnalysis r1 r2).summary.length = 4 := by
    simp only [performMockAnalysis]
    split <;> simp [mockAuthObs, mockAiObs]
  have hclaude : (claudeHeuristic t).summary
      = (if (fallbackObservations t).isEmpty then claudeDefaultObs
         else fallbackObservations t).map JsValue.str := by
    simp only [claudeHeuristic]
    cases h : fallbackObservations t <;> simp [h]
  have hdeep : (deepseekHeuristic t).summary
      = (if (fallbackObservations t).isEmpty then deepseekDefaultObs
         else fallbackObservations t).map JsValue.str := by
    simp only [deepseekHeuristic]
    cases h : fallbackObservations t <;> simp [h]
  have hlen : (fallbackObservations t).length ≤ 4 := by
    simp only [fallbackObservations, List.length_map, List.length_take]
    exact min_le_left _ _
  exact ⟨hmock, hmock, hclaude, hdeep, hlen, rfl, rfl⟩

/-- C7: for a reply that strict-parses (and contains no backtick fence of
its own), wrapping it in a markdown fenced code block — with or without a
`json` language tag — yields exactly the same result as the unwrapped
reply: the fence stripping and brace-span extraction leave the parsed
object unchanged. -/
theorem fenced_reply_equivalence (t : String)
    (hNo : listContains t.data fence3 = false)
    (b : Bool) (c : ℚ) (obs : List JsValue)
    (hp : strictParse t.data = some (b, c, obs)) :
    claudeReplyResult (wrapJsonFence t) = claudeReplyResult t ∧
    claudeReplyResult (wrapPlainFence t) = claudeReplyResult t ∧
    deepseekReplyResult (wrapJsonFence t) = deepseekReplyResult t ∧
    deepseekReplyResult (wrapPlainFence t) = deepseekReplyResult t := by
  have hj := strictParse_wrapJson t hNo
  have hpl := strictParse_wrapPlain t hNo
  refine ⟨?_, ?_, ?_, ?_⟩
  · unfold claudeReplyResult
    rw [hj, hp]
  · unfold claudeReplyResult
    rw [hpl, hp]
  · unfold deepseekReplyResult
    rw [hj, hp]
  · unfold deepseekReplyResult
    rw [hpl, hp]

theorem fenced_reply_equivalence_witness :
    claudeReplyResult
        (wrapJsonFence "\x7b\"isOriginal\":true,\"confidence\":92,\"observations\":[\"a\",\"b\"]\x7d")
      = claudeReplyResult
        "\x7b\"isOriginal\":true,\"confidence\":92,\"observations\":[\"a\",\"b\"]\x7d" :=
  (fenced_reply_equivalence
    "\x7b\"isOriginal\":true,\"confidence\":92,\"observations\":[\"a\",\"b\"]\x7d"
    (by decide) true 92 [JsValue.str "a", JsValue.str "b"] rfl).1

/-- C8: with neither key configured every request is answered by
`performMockAnalysis`, tagged `mock`, with `isOriginal` the boolean draw
`Math.random() > 0.5`, confidence an integer in `[75,95]`, and the summary
the fixed authentic-leaning 4-line set when `isOriginal` holds and the
fixed AI-leaning 4-line set otherwise. -/
theorem no_keys_always_mock (co deo : FetchOutcome) (r1 r2 : ℚ)
    (h1 : 0 ≤ r2) (h2 : r2 < 1) :
    analyzeDispatch ⟨none, none⟩ co deo r1 r2 = (performMockAnalysis r1 r2, [Provider.mock]) ∧
    (performMockAnalysis r1 r2).analysisMethod = "mock" ∧
    (performMockAnalysis r1 r2).isOriginal = decide ((1 : ℚ) / 2 < r1) ∧
    75 ≤ (performMockAnalysis r1 r2).confidence ∧
    (performMockAnalysis r1 r2).confidence ≤ 95 ∧
    (performMockAnalysis r1 r2).summary
      = (if (performMockAnalysis r1 r2).isOriginal then mockAuthObs else mockAiObs).map JsValue.str ∧
    (performMockAnalysis r1 r2).fallbackReason = none := by
  have hbounds := mock_confidence_bounds r1 r2 h1 h2
  have hsum : (performMockAnalysis r1 r2).summary
      = (if (performMockAnalysis r1 r2).isOriginal then mockAuthObs else mockAiObs).map
          JsValue.str := by
    simp only [performMockAnalysis]
    by_cases h : (1 : ℚ) / 2 < r1 <;> simp [h]
  exact ⟨rfl, rfl, rfl, hbounds.1, hbounds.2, hsum, rfl⟩

theorem no_keys_always_mock_witness :
    analyzeDispatch ⟨none, none⟩ (.success "") (.success "") 0 0
      = (performMockAnalysis 0 0, [Provider.mock]) :=
  (no_keys_always_mock (.success "") (.success "") 0 0 (by decide) (by decide)).1

/-- C9 counterexample: the mock-fallback path modifies a result after the
function that constructed it has returned it.  In the source,
`analyzeWithClaude`'s catch block receives the very object returned by
`performMockAnalysis` and reassigns its `analysisMethod` (from `"mock"` to
`"mock-fallback"`) and its `fallbackReason` (from absent to the error
message) before returning it — so the result constructed and returned by
`performMockAnalysis` is mutated afterwards, while its other three fields
are left untouched. -/
theorem result_mutated_after_mock_return_cex :
    (performMockAnalysis 0 0).analysisMethod = "mock" ∧
    (analyzeWithClaude (.networkError "boom") 0 0).analysisMethod = "mock-fallback" ∧
    (performMockAnalysis 0 0).fallbackReason = none ∧
    (analyzeWithClaude (.networkError "boom") 0 0).fallbackReason = some "boom" ∧
    (analyzeWithClaude (.networkError "boom") 0 0).isOriginal
      = (performMockAnalysis 0 0).isOriginal ∧
    (analyzeWithClaude (.networkError "boom") 0 0).confidence
      = (performMockAnalysis 0 0).confidence ∧
    (analyzeWithClaude (.networkError "boom") 0 0).summary
      = (performMockAnalysis 0 0).summary :=
  ⟨rfl, rfl, rfl, rfl, rfl, rfl, rfl⟩

/-- C9 (amended): results are not modified after the top-level analysis
functions return them, but the mock-fallback path does modify the object
`performMockAnalysis` returned: it overwrites exactly `analysisMethod` and
`fallbackReason`, leaving `isOriginal`, `confidence` and `summary`
unchanged. -/
theorem mock_fallback_field_update (msg : String) (r1 r2 : ℚ) :
    analyzeWithClaude (.networkError msg) r1 r2
      = { performMockAnalysis r1 r2 with
          analysisMethod := "mock-fallback", fallbackReason := some msg } ∧
    analyzeWithDeepSeek (.networkError msg) r1 r2
      = { performMockAnalysis r1 r2 with
          analysisMethod := "mock-fallback", fallbackReason := some msg } ∧
    (analyzeWithClaude (.networkError msg) r1 r2).isOriginal
      = (performMockAnalysis r1 r2).isOriginal ∧
    (analyzeWithClaude (.networkError msg) r1 r2).confidence
      = (performMockAnalysis r1 r2).confidence ∧
    (analyzeWithClaude (.networkError msg) r1 r2).summary
      = (performMockAnalysis r1 r2).summary ∧
    (analyzeWithClaude (.networkError msg) r1 r2).analysisMethod
      ≠ (performMockAnalysis r1 r2).analysisMethod ∧
    (analyzeWithClaude (.networkError msg) r1 r2).fallbackReason
      ≠ (performMockAnalysis r1 r2).fallbackReason :=
  ⟨rfl, rfl, rfl, rfl, rfl,
    by simp [analyzeWithClaude, mockFallbackResult, performMockAnalysis],
    by simp [analyzeWithClaude, mockFallbackResult, performMockAnalysis]⟩

/-- C10: the two heuristic extractors are not the same function: Claude's
keyword set contains `fake`, DeepSeek's does not, so an unparseable reply
containing `fake` but none of the shared keywords is judged AI-generated by
the Claude tier and authentic by the DeepSeek tier. -/
theorem heuristic_keyword_divergence (t : String)
    (hf : listContains (t.data.map Char.toLower) "fake".data = true)
    (h1 : listContains (t.data.map Char.toLower) "ai-generated".data = false)
    (h2 : listContains (t.data.map Char.toLower) "artificial".data = false)
    (h3 : listContains (t.data.map Char.toLower) "generated".data = false) :
    (deepseekHeuristic t).isOriginal = true ∧
    (claudeHeuristic t).isOriginal = false ∧
    deepseekHeuristic t ≠ claudeHeuristic t := by
  have hd : (deepseekHeuristic t).isOriginal = true := by
    simp [deepseekHeuristic, h1, h2, h3]
  have hc : (claudeHeuristic t).isOriginal = false := by
    simp [claudeHeuristic, h1, h2, h3, hf]
  refine ⟨hd, hc, ?_⟩
  intro he
  rw [he, hc] at hd
  exact absurd hd (by simp)

theorem heuristic_keyword_divergence_witness :
    (deepseekHeuristic "This photo looks fake.").isOriginal = true ∧
    (claudeHeuristic "This photo looks fake.").isOriginal = false :=
  ⟨(heuristic_keyword_divergence "This photo looks fake."
      (by decide) (by decide) (by decide) (by decide)).1,
   (heuristic_keyword_divergence "This photo looks fake."
      (by decide) (by decide) (by decide) (by decide)).2.1⟩
